import Mathlib

/-! Verification of the trading core of the crypto-agent repository:
quantization and sizing (agent/app/mexc.py), take-profit pricing and the
per-symbol trading tick (agent/app/trader.py), and the position data model
(agent/app/db.py).  Prices, quantities and budgets are modelled as exact
rationals, mirroring the exact-decimal arithmetic the source performs with
Python Decimals.  Intermediate values the source binds to local variables
(the floored quantity, the minimum-notional quantity, the trimmed sell
quantity, the entry budget) are lifted into named definitions so theorems
can speak about them directly. -/

namespace CryptoAgent

/-- Decimal rounding mode ROUND_DOWN rounds toward zero: floor for
non-negative arguments, ceiling for negative ones. -/
def truncQ (x : ℚ) : ℤ := if 0 ≤ x then ⌊x⌋ else ⌈x⌉

/-- Decimal rounding mode ROUND_UP rounds away from zero: ceiling for
non-negative arguments, floor for negative ones. -/
def awayQ (x : ℚ) : ℤ := if 0 ≤ x then ⌈x⌉ else ⌊x⌋

/-- mexc.py `_quantize_down(x, step)`: returns `x` unchanged when `step` is
zero, else `(x / step).to_integral_value(rounding=ROUND_DOWN) * step`. -/
def quantize_down (x step : ℚ) : ℚ :=
  if step = 0 then x else (truncQ (x / step) : ℚ) * step

/-- mexc.py `_quantize_up(x, step)`: returns `x` unchanged when `step` is
zero, else `(x / step).to_integral_value(rounding=ROUND_UP) * step`. -/
def quantize_up (x step : ℚ) : ℚ :=
  if step = 0 then x else (awayQ (x / step) : ℚ) * step

/-- Per-symbol filter cache entry (mexc.py `_SYMBOL_FILTERS`).  The source
normalizes an absent field to Decimal 0 via `or Decimal("0")` before use, so
an absent filter is represented here by the value 0. -/
structure SymbolFilters where
  tickSize : ℚ
  stepSize : ℚ
  minQty : ℚ
  minNotional : ℚ
deriving DecidableEq

/-- mexc.py `round_price(symbol, price)`: floors the price to the tick size
when a nonzero tick size is cached, else returns the price unchanged. -/
def round_price (f : SymbolFilters) (price : ℚ) : ℚ :=
  if f.tickSize ≠ 0 then quantize_down price f.tickSize else price

/-- The step-flooring half of mexc.py `round_qty`: `_quantize_down(qty,
step)` when a nonzero step size is cached, else the input unchanged. -/
def floor_step (f : SymbolFilters) (x : ℚ) : ℚ :=
  if f.stepSize ≠ 0 then quantize_down x f.stepSize else x

/-- The minimum-quantity raise shared by mexc.py `round_qty` and
`size_order`: `if minq and q < minq: q = minq`. -/
def bump_min (f : SymbolFilters) (q : ℚ) : ℚ :=
  if f.minQty ≠ 0 ∧ q < f.minQty then f.minQty else q

/-- mexc.py `round_qty(symbol, qty)`: floors the quantity to the step size,
then raises the result to `minQty` when a nonzero `minQty` is cached and
the floored value is below it. -/
def round_qty (f : SymbolFilters) (qty : ℚ) : ℚ :=
  bump_min f (floor_step f qty)

/-- The quantity mexc.py `size_order` computes before the notional check:
`budget / price` floored to the step and raised to `minQty` — the same
floor-then-raise computation as `round_qty`, applied to the raw quotient. -/
def sized_qty (f : SymbolFilters) (price budget : ℚ) : ℚ :=
  round_qty f (budget / price)

/-- The minimum-notional quantity of mexc.py `size_order`:
`_quantize_up(minNotional / price, step)` when a nonzero step is cached,
else the raw quotient. -/
def need_qty (f : SymbolFilters) (price : ℚ) : ℚ :=
  if f.stepSize ≠ 0 then quantize_up (f.minNotional / price) f.stepSize
  else f.minNotional / price

/-- mexc.py `size_order(symbol, price, budget_usdt)`: returns 0 for a
non-positive price or budget; otherwise floors `budget / price` to the step
size and raises it to `minQty`; if the resulting notional is below a
nonzero `minNotional`, switches to the minimal step-multiple clearing
`minNotional`, returning 0 when that quantity would cost more than the
budget.  The final `return float(q) if q > 0 else 0.0` maps a non-positive
result to 0. -/
def size_order (f : SymbolFilters) (price budget : ℚ) : ℚ :=
  if price ≤ 0 ∨ budget ≤ 0 then 0
  else if f.minNotional ≠ 0 ∧ sized_qty f price budget * price < f.minNotional then
    if budget < need_qty f price * price then 0
    else if 0 < need_qty f price then need_qty f price else 0
  else if 0 < sized_qty f price budget then sized_qty f price budget else 0

/-- Closed form of `size_order` for a symbol whose cached step size is
zero: the raw quotient `budget / price` is passed through unquantized (the
division by the step never happens), with the `minQty` raise and the
`minNotional` check still applied.  Stated for comparison with `size_order`
in the zero-step theorem. -/
def size_order_nostep (f : SymbolFilters) (price budget : ℚ) : ℚ :=
  if price ≤ 0 ∨ budget ≤ 0 then 0
  else if f.minNotional ≠ 0 ∧ bump_min f (budget / price) * price < f.minNotional then
    if budget < f.minNotional / price * price then 0
    else if 0 < f.minNotional / price then f.minNotional / price else 0
  else if 0 < bump_min f (budget / price) then bump_min f (budget / price) else 0

/-- trader.py `_tp_price(buy_price, maker_fee, taker_fee)`:
`buy_price * (1 + maker_fee) * (1 + TP_PCT) / (1 - taker_fee)`. -/
def tp_price (buy_price maker_fee taker_fee tpPct : ℚ) : ℚ :=
  buy_price * (1 + maker_fee) * (1 + tpPct) / (1 - taker_fee)

/-- Modelled from the spec: the cost of entering a position of `qty` units
at price `avg` when the exchange charges a maker-side fee fraction on the
entry.  The fee arithmetic itself is applied by the exchange, not by code
under src/; the spec describes the entry cost as the notional plus the
maker-fee fraction of it. -/
def entry_cost (qty avg maker : ℚ) : ℚ := qty * avg * (1 + maker)

/-- Modelled from the spec: proceeds of selling `qty` units at price `p`
when the exchange charges a taker-side fee fraction on the exit. -/
def sell_proceeds (qty p taker : ℚ) : ℚ := qty * p * (1 - taker)

/-- Modelled from the spec: net realized profit of a round trip, exit
proceeds minus entry cost, both fee-adjusted as the spec describes. -/
def net_profit (qty avg maker p taker : ℚ) : ℚ :=
  sell_proceeds qty p taker - entry_cost qty avg maker

/-- Position lifecycle states (db.py `Position.state` strings). -/
inductive PState
  | flat
  | opening
  | long
  | closing
deriving DecidableEq

/-- db.py `Position` row (one per symbol; the symbol key is kept outside,
and timestamp columns are omitted as they never influence control flow). -/
structure Position where
  qty : ℚ
  avg_price : Option ℚ
  state : PState
  target_price : Option ℚ
  stop_price : Option ℚ
  last_buy_order : Option Nat
  last_sell_order : Option Nat
deriving DecidableEq

/-- The row created by trader.py when a symbol first appears:
`Position(symbol=sym, qty=0.0, state="flat")`. -/
def defaultPos : Position :=
  { qty := 0, avg_price := none, state := PState.flat, target_price := none,
    stop_price := none, last_buy_order := none, last_sell_order := none }

/-- trader.py reads `(pos.avg_price or 0)`: an absent average price counts
as zero. -/
def avgOf (p : Position) : ℚ := p.avg_price.getD 0

/-- The spec's Position invariant: a positive quantity only in `long` or
`closing`; a flat position holds nothing; the average price is recorded
only while a positive quantity is held. -/
abbrev PosInv (p : Position) : Prop :=
  (0 < p.qty → p.state = PState.long ∨ p.state = PState.closing) ∧
  (p.state = PState.flat → p.qty = 0) ∧
  (p.avg_price.isSome → 0 < p.qty)

/-- The Position invariant together with the data model's non-negativity
of the held quantity (spec data model: qty is a non-negative decimal). -/
abbrev PosInvD (p : Position) : Prop := PosInv p ∧ 0 ≤ p.qty

/-- trader.py module-level configuration.  The live-mode entry path also
reads RESERVE_PCT (line 163), a name never defined in the module or its
imports; every live-mode entry attempt raises NameError there, so no
reserve fraction belongs to the configuration the program can actually use
and none is modelled. -/
structure TradeConfig where
  tpPct : ℚ
  slPct : ℚ
  maxUsdt : ℚ
  makerFrac : ℚ
  takerFrac : ℚ
  volMin : ℚ
deriving DecidableEq

/-- db.py `MexcOrder` row as inserted by trader.py (identifier and
timestamp columns omitted). -/
structure OrderRec where
  symbol : String
  side : String
  otype : String
  price : ℚ
  qty : ℚ
  status : String
  is_test : Bool
deriving DecidableEq

/-- Externally observable actions of one tick: an exchange API call, an
order-row insert, or a broadcast event `{type, symbol}`. -/
inductive Effect
  | call (api : String)
  | order (o : OrderRec)
  | emit (kind : String) (sym : String)
deriving DecidableEq

/-- Result of trader.py `query_order` for the outstanding buy order: the
upper-cased status string plus optional executedQty and
cummulativeQuoteQty fields. -/
structure QueryResult where
  status : String
  executedQty : Option ℚ
  cumQuote : Option ℚ
deriving DecidableEq

/-- Per-symbol inputs of one trading tick.  `recommendation` is the string
from the recommendation snapshot with the source's `"HOLD"` default already
applied; `cachedAtr` is the snapshot's `atr_ratio`; `recomputedAtr` is the
outcome of the fallback ATR recomputation from fresh candles (`none` both
when that computation raises and when the ATR is not positive);
`queryRes` is `none` when `query_order` raises MexcTradeError; `buyOk` and
`sellOk` tell whether `new_order` succeeds; `hasPrice` tells whether the
close-price fetch produced a truthy price. -/
structure SymbolCtx where
  symbol : String
  tradable : Bool
  hasPrice : Bool
  price : ℚ
  filters : SymbolFilters
  recommendation : String
  cachedAtr : Option ℚ
  recomputedAtr : Option ℚ
  queryRes : Option QueryResult
  quoteFree : ℚ
  baseFree : ℚ
  buyOk : Bool
  buyOrderId : Option Nat
  sellOk : Bool
  sellOrderId : Option Nat
deriving DecidableEq

/-- Inputs of the entry block (trader.py lines 141-210). -/
structure EntryCtx where
  symbol : String
  recommendation : String
  cachedAtr : Option ℚ
  recomputedAtr : Option ℚ
  price : ℚ
  quoteFree : ℚ
  buyOk : Bool
  buyOrderId : Option Nat
deriving DecidableEq

/-- Inputs of the exit block (trader.py lines 212-250). -/
structure ExitCtx where
  symbol : String
  baseFree : ℚ
  sellOk : Bool
  sellOrderId : Option Nat
deriving DecidableEq

/-- The ATR ratio the gate sees: the cached value when present, else the
value recomputed from fresh candles (trader.py lines 144-152). -/
def effAtr (cached recomputed : Option ℚ) : Option ℚ :=
  match cached with
  | some v => some v
  | none => recomputed

/-- trader.py line 153: the gate blocks the entry exactly when an ATR ratio
value is present and below VOL_RATIO_MIN; an absent ratio does not
block. -/
def gate_blocked (cfg : TradeConfig) (a : Option ℚ) : Bool :=
  match a with
  | some v => decide (v < cfg.volMin)
  | none => false

/-- The budget the entry block passes to `size_order`: `min(MAX_USDT,
1e12)` (trader.py line 161).  The live-mode balance cap of lines 162-168 is
never applied: its first line evaluates the undefined name RESERVE_PCT and
raises NameError, so in live mode the entry block aborts before any budget
reaches `size_order`. -/
def entry_budget (cfg : TradeConfig) : ℚ :=
  min cfg.maxUsdt ((10 : ℚ) ^ (12 : ℕ))

/-- The quantity the entry block submits: `size_order` on the tick-rounded
close price and the budget of line 161 (trader.py lines 159-169; only
reached in test mode, see `entry_budget`). -/
def entry_qty (cfg : TradeConfig) (testOnly : Bool) (f : SymbolFilters)
    (c : EntryCtx) : ℚ :=
  size_order f (round_price f c.price) (entry_budget cfg)

/-- The tick-rounded take-profit price: `round_price(_tp_price(avg))`
(trader.py lines 191 and 214). -/
def tp_of (cfg : TradeConfig) (f : SymbolFilters) (avg : ℚ) : ℚ :=
  round_price f (tp_price avg cfg.makerFrac cfg.takerFrac cfg.tpPct)

/-- The quantity the exit block submits (trader.py lines 217-226): the held
quantity, replaced in live mode by `round_qty(free_base)` when the held
quantity exceeds the free base balance. -/
def sell_qty (testOnly : Bool) (f : SymbolFilters) (baseFree qty : ℚ) : ℚ :=
  if testOnly = false ∧ baseFree < qty then round_qty f baseFree else qty

/-- The average fill price trader.py derives on a FILLED reconciliation
(lines 116-124): `cummulativeQuoteQty / qty` rounded to the tick when both
are usable, else the observed close rounded to the tick; `qty` here is the
raw executed quantity (or the free-base snapshot), before step rounding. -/
def fill_avg (f : SymbolFilters) (od : QueryResult) (baseFree price : ℚ) : ℚ :=
  match od.cumQuote with
  | some cq =>
      if 0 < od.executedQty.getD baseFree
      then round_price f (cq / od.executedQty.getD baseFree)
      else round_price f price
  | none => round_price f price

/-- trader.py lines 113-135, the status dispatch of the reconciliation
block: FILLED takes the quantity from executedQty (else the free-base
snapshot) rounded to the step and the average price from `fill_avg`;
CANCELED or REJECTED resets the row to flat and clears the order
reference; any other status leaves the row unchanged. -/
def reconcile_od (f : SymbolFilters) (sym : String) (price baseFree : ℚ)
    (od : QueryResult) (pos : Position) : Position × List Effect :=
  if od.status = "FILLED" then
    ({ pos with
        qty := round_qty f (od.executedQty.getD baseFree),
        avg_price := some (fill_avg f od baseFree price),
        state := PState.long },
     [Effect.call ("query_order"), Effect.emit ("trade_filled_buy") sym])
  else if od.status = "CANCELED" ∨ od.status = "REJECTED" then
    ({ pos with state := PState.flat, last_buy_order := none },
     [Effect.call ("query_order"), Effect.emit ("trade_buy_cancelled") sym])
  else (pos, [Effect.call ("query_order")])

/-- trader.py lines 108-139: live-mode reconciliation of an `opening`
position with an outstanding buy order against the exchange's order
status; a transient query error (MexcTradeError, modelled as a `none`
query result) only emits a trade_error event. -/
def reconcile_fx (testOnly : Bool) (f : SymbolFilters) (sym : String) (price : ℚ)
    (baseFree : ℚ) (qres : Option QueryResult) (pos : Position) :
    Position × List Effect :=
  if testOnly = false ∧ pos.state = PState.opening ∧ pos.last_buy_order.isSome then
    match qres with
    | none => (pos, [Effect.call ("query_order"), Effect.emit ("trade_error") sym])
    | some od => reconcile_od f sym price baseFree od pos
  else (pos, [])

/-- trader.py lines 141-210: entry from `flat` on a BUY or ACCUMULATE
recommendation, guarded by the volatility gate and a positive `size_order`
result.  In live mode the block aborts right after the gate: line 163
evaluates RESERVE_PCT, a name defined nowhere in the module or its imports,
so NameError is raised before any balance check, sizing, order placement or
broadcast, and the row is left unchanged (lines 164-199, including the
`opening`-state mutation of lines 195-199, never execute).  In test mode
the fill is assumed immediate (state `long`, target and stop computed); a
placement error only inserts a REJECTED order row. -/
def entry_fx (cfg : TradeConfig) (testOnly : Bool) (f : SymbolFilters)
    (c : EntryCtx) (pos : Position) : Position × List Effect :=
  if pos.state = PState.flat ∧
      (c.recommendation = "BUY" ∨ c.recommendation = "ACCUMULATE") then
    if gate_blocked cfg (effAtr c.cachedAtr c.recomputedAtr) then
      (pos, [Effect.emit ("trade_skip") c.symbol])
    else if testOnly = false then
      (pos, [])
    else if entry_qty cfg testOnly f c ≤ 0 then
      (pos, [Effect.emit ("trade_skip") c.symbol])
    else if c.buyOk = false then
      (pos, [Effect.call ("new_order"),
             Effect.order ⟨c.symbol, "BUY", "LIMIT", round_price f c.price,
                           entry_qty cfg testOnly f c, "REJECTED", testOnly⟩,
             Effect.emit ("trade_error") c.symbol])
    else
      ({ pos with
          qty := entry_qty cfg testOnly f c,
          avg_price := some (round_price f c.price),
          state := PState.long,
          target_price := some (tp_of cfg f (round_price f c.price)),
          stop_price :=
            if 0 < cfg.slPct
            then some (round_price f (round_price f c.price * (1 - cfg.slPct)))
            else none },
       [Effect.call ("new_order"),
        Effect.order ⟨c.symbol, "BUY", "LIMIT", round_price f c.price,
                      entry_qty cfg testOnly f c, "NEW", testOnly⟩,
        Effect.emit ("trade_buy_placed") c.symbol])
  else (pos, [])

/-- trader.py lines 212-250: take-profit placement from `long` with a
positive held quantity and average price.  In live mode the attempt is
skipped when the free base balance is not positive or when the trimmed
quantity is not positive.  Success moves the row to `closing`; an error
only inserts a REJECTED order row. -/
def exit_fx (cfg : TradeConfig) (testOnly : Bool) (f : SymbolFilters)
    (c : ExitCtx) (pos : Position) : Position × List Effect :=
  if pos.state = PState.long ∧ 0 < pos.qty ∧ 0 < avgOf pos then
    if testOnly = false ∧ c.baseFree ≤ 0 then (pos, [])
    else if testOnly = false ∧ sell_qty testOnly f c.baseFree pos.qty ≤ 0 then (pos, [])
    else if c.sellOk then
      ({ pos with state := PState.closing, last_sell_order := c.sellOrderId },
       [Effect.call ("new_order"),
        Effect.order ⟨c.symbol, "SELL", "LIMIT", tp_of cfg f (avgOf pos),
                      sell_qty testOnly f c.baseFree pos.qty, "NEW", testOnly⟩,
        Effect.emit ("trade_sell_tp_placed") c.symbol])
    else
      (pos, [Effect.call ("new_order"),
             Effect.order ⟨c.symbol, "SELL", "LIMIT", tp_of cfg f (avgOf pos),
                           sell_qty testOnly f c.baseFree pos.qty, "REJECTED", testOnly⟩,
             Effect.emit ("trade_error") c.symbol])
  else (pos, [])

/-- The entry-block inputs taken from a symbol context. -/
def entry_ctx (c : SymbolCtx) : EntryCtx :=
  ⟨c.symbol, c.recommendation, c.cachedAtr, c.recomputedAtr, c.price,
   c.quoteFree, c.buyOk, c.buyOrderId⟩

/-- The exit-block inputs taken from a symbol context. -/
def exit_ctx (c : SymbolCtx) : ExitCtx :=
  ⟨c.symbol, c.baseFree, c.sellOk, c.sellOrderId⟩

/-- Sequencing of two row-mutating steps, accumulating their effects. -/
def andThen (r : Position × List Effect)
    (g : Position → Position × List Effect) : Position × List Effect :=
  ((g r.1).1, r.2 ++ (g r.1).2)

/-- One symbol's pass of trader.py `trader_tick` (lines 92-250): skip when
the exchange does not allow trading or the close price is missing, else run
reconciliation, then the entry block, then the exit block, in the source's
order, on the successively updated row. -/
def tick_symbol (cfg : TradeConfig) (testOnly : Bool) (c : SymbolCtx)
    (pos : Position) : Position × List Effect :=
  if c.tradable = false then
    (pos, [Effect.call ("exchange_info"), Effect.emit ("trade_skip") c.symbol])
  else if c.hasPrice = false then (pos, [Effect.call ("exchange_info")])
  else
    andThen
      (andThen
        (reconcile_fx testOnly c.filters c.symbol c.price c.baseFree c.queryRes pos)
        (entry_fx cfg testOnly c.filters (entry_ctx c)))
      (exit_fx cfg testOnly c.filters (exit_ctx c))

/-- trader.py lines 84-89: create a flat Position row for every symbol that
does not have one yet. -/
def ensure_rows (syms : List String) (ps : List (String × Position)) :
    List (String × Position) :=
  syms.foldl
    (fun acc sym =>
      if (acc.lookup sym).isSome then acc else acc ++ [(sym, defaultPos)])
    ps

/-- Replace one symbol's row in the store. -/
def set_pos (ps : List (String × Position)) (sym : String) (p : Position) :
    List (String × Position) :=
  ps.map fun e => if e.1 = sym then (sym, p) else e

/-- trader.py `trader_tick`: returns immediately when TRADE_ENABLED is
false; in live mode a failed balance fetch aborts the whole tick after a
trade_error event; otherwise flat rows are ensured for new symbols and
every symbol is processed in order by `tick_symbol`. -/
def trader_tick (cfg : TradeConfig) (testOnly enabled acctOk : Bool)
    (ctxs : List SymbolCtx) (ps : List (String × Position)) :
    List (String × Position) × List Effect :=
  if enabled = false then (ps, [])
  else if testOnly = false ∧ acctOk = false then
    (ps, [Effect.call ("klines"), Effect.call ("account_info"),
          Effect.emit ("trade_error") ("")])
  else
    ctxs.foldl
      (fun acc c =>
        match acc.1.lookup c.symbol with
        | none => acc
        | some pos =>
          (set_pos acc.1 c.symbol (tick_symbol cfg testOnly c pos).1,
           acc.2 ++ (tick_symbol cfg testOnly c pos).2))
      (ensure_rows (ctxs.map SymbolCtx.symbol) ps,
       [Effect.call ("klines")] ++
         (if testOnly then [] else [Effect.call ("account_info")]))

/-- Shared concrete configuration for concrete-input theorems: 2% target
profit, no stop loss, 50 USDT budget cap, zero fees, volatility floor 40. -/
def cexCfg : TradeConfig :=
  { tpPct := 1/50, slPct := 0, maxUsdt := 50, makerFrac := 0, takerFrac := 0,
    volMin := 40 }

/-- Concrete filters with a fine step: tick 0.01, step 0.001, minQty 0.001,
minNotional 5. -/
def cexFiltersFine : SymbolFilters :=
  { tickSize := 1/100, stepSize := 1/1000, minQty := 1/1000, minNotional := 5 }

/-- Concrete filters with a coarse minimum quantity: tick 0.01, step 0.1,
minQty 1, minNotional 5. -/
def cexFiltersCoarse : SymbolFilters :=
  { tickSize := 1/100, stepSize := 1/10, minQty := 1, minNotional := 5 }

/-- Concrete filters whose minimum quantity 0.5 is not a multiple of the
step size 0.3. -/
def cexFiltersMult : SymbolFilters :=
  { tickSize := 1/100, stepSize := 3/10, minQty := 1/2, minNotional := 5 }

/-- Concrete filters where the minimum quantity 10 alone costs more than a
small budget at price 1: step 1, minQty 10, minNotional 5. -/
def cexFiltersBudget : SymbolFilters :=
  { tickSize := 1/100, stepSize := 1, minQty := 10, minNotional := 5 }

/-- Concrete filters with a coarse tick of 5 and no step, minimum quantity
or minimum notional cached. -/
def cexFiltersTick5 : SymbolFilters :=
  { tickSize := 5, stepSize := 0, minQty := 0, minNotional := 0 }

/-- Concrete filters with nothing cached except a minimum quantity of 2 and
minimum notional of 5 (zero tick and step). -/
def cexFiltersZero : SymbolFilters :=
  { tickSize := 0, stepSize := 0, minQty := 2, minNotional := 5 }

/-- A long position holding 2 units at average price 100. -/
def cexLongPos : Position :=
  { qty := 2, avg_price := some 100, state := PState.long, target_price := none,
    stop_price := none, last_buy_order := none, last_sell_order := none }

/-- A test-mode tick context for a flat symbol with a BUY recommendation
and no ATR ratio available anywhere (cached and recomputed both absent). -/
def cexTestCtx : SymbolCtx :=
  { symbol := "BTCUSDT", tradable := true, hasPrice := true, price := 100,
    filters := cexFiltersFine, recommendation := "BUY", cachedAtr := none,
    recomputedAtr := none, queryRes := none, quoteFree := 0, baseFree := 0,
    buyOk := true, buyOrderId := some 1, sellOk := true, sellOrderId := some 2 }

/-- Concrete filters whose minimum quantity is absent (cached as zero):
tick 0.01, step 0.001, minQty 0, minNotional 5 — the shape produced when
the exchange's lot-size filter carries a stepSize but no minQty field
(mexc.py lines 99-102 leave minQty as None in that case). -/
def cexFiltersNoMin : SymbolFilters :=
  { tickSize := 1/100, stepSize := 1/1000, minQty := 0, minNotional := 5 }

/-- A pre-existing `opening` row with an outstanding buy order reference,
as read back from the positions table; it satisfies the spec's Position
invariant (nothing held, no average price). -/
def cexOpeningPos : Position :=
  { qty := 0, avg_price := none, state := PState.opening, target_price := none,
    stop_price := none, last_buy_order := some 9, last_sell_order := none }

/-- A live-mode tick context in which the exchange reports the outstanding
buy order FILLED without an executedQty (trader.py line 117 then falls back
to the free-base snapshot, here 0, fetched before the fill settled) and
without a cummulativeQuoteQty; the recommendation is HOLD. -/
def cexFilledCtx : SymbolCtx :=
  { symbol := "BTCUSDT", tradable := true, hasPrice := true, price := 100,
    filters := cexFiltersNoMin, recommendation := "HOLD", cachedAtr := none,
    recomputedAtr := none,
    queryRes := some { status := "FILLED", executedQty := none, cumQuote := none },
    quoteFree := 0, baseFree := 0, buyOk := true, buyOrderId := none,
    sellOk := true, sellOrderId := none }

/-! Helper lemmas about the quantization primitives. -/

theorem truncQ_of_nonneg {x : ℚ} (h : 0 ≤ x) : truncQ x = ⌊x⌋ := if_pos h

theorem truncQ_intCast (k : ℤ) : truncQ (k : ℚ) = k := by
  unfold truncQ
  split <;> simp

theorem quantize_down_of_zero (x : ℚ) : quantize_down x 0 = x := if_pos rfl

theorem quantize_down_le {x s : ℚ} (hs : 0 < s) (hx : 0 ≤ x) :
    quantize_down x s ≤ x := by
  unfold quantize_down
  rw [if_neg hs.ne', truncQ_of_nonneg (div_nonneg hx hs.le)]
  calc (⌊x / s⌋ : ℚ) * s ≤ x / s * s :=
        mul_le_mul_of_nonneg_right (Int.floor_le _) hs.le
    _ = x := div_mul_cancel₀ x hs.ne'

theorem quantize_down_nonneg {x s : ℚ} (hs : 0 ≤ s) (hx : 0 ≤ x) :
    0 ≤ quantize_down x s := by
  rcases eq_or_lt_of_le hs with h | h
  · rw [← h, quantize_down_of_zero]
    exact hx
  · unfold quantize_down
    rw [if_neg h.ne', truncQ_of_nonneg (div_nonneg hx h.le)]
    have h2 : (0 : ℚ) ≤ (⌊x / s⌋ : ℚ) := by
      exact_mod_cast Int.floor_nonneg.mpr (div_nonneg hx h.le)
    exact mul_nonneg h2 h.le

theorem le_quantize_up {x s : ℚ} (hs : 0 < s) (hx : 0 ≤ x) :
    x ≤ quantize_up x s := by
  unfold quantize_up awayQ
  rw [if_neg hs.ne', if_pos (div_nonneg hx hs.le)]
  calc x = x / s * s := (div_mul_cancel₀ x hs.ne').symm
    _ ≤ (⌈x / s⌉ : ℚ) * s := mul_le_mul_of_nonneg_right (Int.le_ceil _) hs.le

theorem quantize_down_greatest {x s : ℚ} (hs : 0 < s) (hx : 0 ≤ x) (m : ℤ)
    (h : (m : ℚ) * s ≤ x) : (m : ℚ) * s ≤ quantize_down x s := by
  unfold quantize_down
  rw [if_neg hs.ne', truncQ_of_nonneg (div_nonneg hx hs.le)]
  have hm : m ≤ ⌊x / s⌋ := Int.le_floor.mpr (by rw [le_div_iff₀ hs]; exact h)
  exact mul_le_mul_of_nonneg_right (by exact_mod_cast hm) hs.le

theorem quantize_down_eq_int_mul {x s : ℚ} (hs : s ≠ 0) :
    ∃ k : ℤ, quantize_down x s = (k : ℚ) * s := by
  refine ⟨truncQ (x / s), ?_⟩
  unfold quantize_down
  rw [if_neg hs]

theorem quantize_down_idem (x s : ℚ) :
    quantize_down (quantize_down x s) s = quantize_down x s := by
  by_cases h : s = 0
  · rw [h, quantize_down_of_zero, quantize_down_of_zero]
  · simp only [quantize_down, if_neg h]
    rw [mul_div_cancel_right₀ _ h, truncQ_intCast]

theorem quantize_down_le_self_of_pos {y s : ℚ} (hy : 0 < y) :
    quantize_down y s ≤ y := by
  rcases lt_trichotomy s 0 with hs | hs | hs
  · unfold quantize_down truncQ
    rw [if_neg hs.ne, if_neg (not_le.mpr (div_neg_of_pos_of_neg hy hs))]
    calc (⌈y / s⌉ : ℚ) * s ≤ y / s * s :=
          mul_le_mul_of_nonpos_right (Int.le_ceil _) hs.le
      _ = y := div_mul_cancel₀ y hs.ne
  · rw [hs, quantize_down_of_zero]
  · exact quantize_down_le hs hy.le

theorem floor_step_eq (f : SymbolFilters) (x : ℚ) :
    floor_step f x = quantize_down x f.stepSize := by
  unfold floor_step
  by_cases h : f.stepSize = 0
  · rw [if_neg (not_not_intro h), h, quantize_down_of_zero]
  · rw [if_pos h]

theorem round_price_eq (f : SymbolFilters) (x : ℚ) :
    round_price f x = quantize_down x f.tickSize := by
  unfold round_price
  by_cases h : f.tickSize = 0
  · rw [if_neg (not_not_intro h), h, quantize_down_of_zero]
  · rw [if_pos h]

theorem round_qty_eq (f : SymbolFilters) (x : ℚ) :
    round_qty f x =
      if f.minQty ≠ 0 ∧ quantize_down x f.stepSize < f.minQty then f.minQty
      else quantize_down x f.stepSize := by
  unfold round_qty bump_min
  rw [floor_step_eq]

theorem round_qty_nonneg (f : SymbolFilters) {x : ℚ} (hs : 0 ≤ f.stepSize)
    (hm : 0 ≤ f.minQty) (hx : 0 ≤ x) : 0 ≤ round_qty f x := by
  rw [round_qty_eq]
  split_ifs with h
  · exact hm
  · exact quantize_down_nonneg hs hx

theorem round_qty_le_max (f : SymbolFilters) {x : ℚ} (hs : 0 ≤ f.stepSize)
    (hx : 0 ≤ x) : round_qty f x ≤ max x f.minQty := by
  rw [round_qty_eq]
  split_ifs with h
  · exact le_max_right _ _
  · rcases eq_or_lt_of_le hs with h0 | h0
    · rw [← h0, quantize_down_of_zero]
      exact le_max_left _ _
    · exact le_trans (quantize_down_le h0 hx) (le_max_left _ _)

/-! Claim C4: round_price floors to the tick size. -/

/-- C4: for a symbol whose cached tick size is positive and any positive
price, `round_price` returns the greatest multiple of the tick size at or
below the price: it is an integer multiple of the tick size, it is at most
the price, and every integer multiple of the tick size at most the price
is at most it. -/
theorem round_price_floor_tick (f : SymbolFilters) (price : ℚ)
    (ht : 0 < f.tickSize) (hp : 0 < price) :
    (∃ k : ℤ, round_price f price = (k : ℚ) * f.tickSize) ∧
    round_price f price ≤ price ∧
    (∀ m : ℤ, (m : ℚ) * f.tickSize ≤ price →
      (m : ℚ) * f.tickSize ≤ round_price f price) := by
  rw [round_price_eq]
  exact ⟨quantize_down_eq_int_mul ht.ne', quantize_down_le ht hp.le,
    fun m hm => quantize_down_greatest ht hp.le m hm⟩

/-- C4 witness at tick size 0.01 and price 3.14. -/
theorem round_price_floor_tick_witness :
    (∃ k : ℤ, round_price cexFiltersFine (157/50) = (k : ℚ) * cexFiltersFine.tickSize) ∧
    round_price cexFiltersFine (157/50) ≤ 157/50 ∧
    (∀ m : ℤ, (m : ℚ) * cexFiltersFine.tickSize ≤ 157/50 →
      (m : ℚ) * cexFiltersFine.tickSize ≤ round_price cexFiltersFine (157/50)) :=
  round_price_floor_tick cexFiltersFine (157/50) (by norm_num [cexFiltersFine])
    (by norm_num)

/-! Claim C10: the quantization helpers guard the division by the step, so
a zero (absent) tick or step size passes values through unquantized. -/

/-- C10: with a zero cached tick size and step size, the quantization
helpers return their input unchanged (the division by the step is guarded),
`round_price` is the identity, `round_qty` only applies the minimum-
quantity raise, and `size_order` equals its step-free closed form in which
the raw quotient `budget / price` is never quantized. -/
theorem zero_step_total (f : SymbolFilters) (x p b : ℚ)
    (ht : f.tickSize = 0) (hs : f.stepSize = 0) :
    quantize_down x f.stepSize = x ∧ quantize_up x f.stepSize = x ∧
    round_price f x = x ∧
    round_qty f x = (if f.minQty ≠ 0 ∧ x < f.minQty then f.minQty else x) ∧
    size_order f p b = size_order_nostep f p b := by
  refine ⟨?_, ?_, ?_, ?_, ?_⟩
  · rw [hs, quantize_down_of_zero]
  · rw [hs]
    exact if_pos rfl
  · rw [round_price_eq, ht, quantize_down_of_zero]
  · rw [round_qty_eq, hs, quantize_down_of_zero]
  · simp [size_order, size_order_nostep, sized_qty, need_qty, round_qty,
      floor_step, bump_min, hs]

/-- C10 witness with only minQty 2 and minNotional 5 cached, at input
value 3, price 2 and budget 10. -/
theorem zero_step_total_witness :
    quantize_down 3 cexFiltersZero.stepSize = 3 ∧
    quantize_up 3 cexFiltersZero.stepSize = 3 ∧
    round_price cexFiltersZero 3 = 3 ∧
    round_qty cexFiltersZero 3 =
      (if cexFiltersZero.minQty ≠ 0 ∧ (3 : ℚ) < cexFiltersZero.minQty
       then cexFiltersZero.minQty else 3) ∧
    size_order cexFiltersZero 2 10 = size_order_nostep cexFiltersZero 2 10 :=
  zero_step_total cexFiltersZero 3 2 10 rfl rfl

/-! Claim C8: idempotence of the quantizers. -/

/-- C8: for any fixed cached filters with a non-negative minimum quantity
and any input value, applying `round_price` twice gives the same result as
once, and likewise for `round_qty`: outputs are fixed points. -/
theorem round_idempotent (f : SymbolFilters) (x : ℚ) (hm : 0 ≤ f.minQty) :
    round_price f (round_price f x) = round_price f x ∧
    round_qty f (round_qty f x) = round_qty f x := by
  constructor
  · rw [round_price_eq, round_price_eq, quantize_down_idem]
  · have hidem := quantize_down_idem x f.stepSize
    rw [round_qty_eq f x, round_qty_eq]
    by_cases h1 : f.minQty ≠ 0 ∧ quantize_down x f.stepSize < f.minQty
    · rw [if_pos h1]
      have hpos : 0 < f.minQty := lt_of_le_of_ne hm (Ne.symm h1.1)
      by_cases h2 : f.minQty ≠ 0 ∧ quantize_down f.minQty f.stepSize < f.minQty
      · rw [if_pos h2]
      · rw [if_neg h2]
        have hge : ¬ quantize_down f.minQty f.stepSize < f.minQty :=
          fun hlt => h2 ⟨h1.1, hlt⟩
        exact le_antisymm (quantize_down_le_self_of_pos hpos) (not_lt.mp hge)
    · rw [if_neg h1, hidem, if_neg h1]

/-- C8 witness at the coarse filters (step 0.1, minQty 1) and input
value 17/7. -/
theorem round_idempotent_witness :
    round_price cexFiltersCoarse (round_price cexFiltersCoarse (17/7)) =
      round_price cexFiltersCoarse (17/7) ∧
    round_qty cexFiltersCoarse (round_qty cexFiltersCoarse (17/7)) =
      round_qty cexFiltersCoarse (17/7) :=
  round_idempotent cexFiltersCoarse (17/7) (by norm_num [cexFiltersCoarse])

/-! Claim C1: budget and notional properties of size_order. -/

/-- C1 (amended): for a symbol whose cached filters have positive step
size, minimum quantity and minimum notional, `size_order` returns 0 when
price or budget is non-positive; for positive price and budget the result
`q` always satisfies `q = 0` or `q * price ≥ minNotional`, and satisfies
`q * price ≤ budget` except possibly when the minimum-quantity raise fires,
in which case `q = minQty` exactly (and its cost may exceed the budget). -/
theorem size_order_budget_notional (f : SymbolFilters) (price budget : ℚ)
    (hs : 0 < f.stepSize) (hq : 0 < f.minQty) (hn : 0 < f.minNotional) :
    ((price ≤ 0 ∨ budget ≤ 0) → size_order f price budget = 0) ∧
    (0 < price → 0 < budget →
      (size_order f price budget = 0 ∨
        f.minNotional ≤ size_order f price budget * price) ∧
      (size_order f price budget * price ≤ budget ∨
        size_order f price budget = f.minQty)) := by
  constructor
  · intro h
    unfold size_order
    rw [if_pos h]
  · intro hp hb
    have hA : ¬ (price ≤ 0 ∨ budget ≤ 0) := by
      push_neg
      exact ⟨hp, hb⟩
    have hneed : f.minNotional ≤ need_qty f price * price := by
      unfold need_qty
      rw [if_pos hs.ne']
      have h1 : f.minNotional / price ≤ quantize_up (f.minNotional / price) f.stepSize :=
        le_quantize_up hs (div_nonneg hn.le hp.le)
      calc f.minNotional = f.minNotional / price * price :=
            (div_mul_cancel₀ _ hp.ne').symm
        _ ≤ quantize_up (f.minNotional / price) f.stepSize * price :=
            mul_le_mul_of_nonneg_right h1 hp.le
    have hsized : sized_qty f price budget * price ≤ budget ∨
        sized_qty f price budget = f.minQty := by
      unfold sized_qty
      rw [round_qty_eq]
      by_cases hbump : f.minQty ≠ 0 ∧ quantize_down (budget/price) f.stepSize < f.minQty
      · rw [if_pos hbump]
        exact Or.inr rfl
      · rw [if_neg hbump]
        refine Or.inl ?_
        have h1 : quantize_down (budget / price) f.stepSize ≤ budget / price :=
          quantize_down_le hs (div_nonneg hb.le hp.le)
        calc quantize_down (budget / price) f.stepSize * price
            ≤ budget / price * price := mul_le_mul_of_nonneg_right h1 hp.le
          _ = budget := div_mul_cancel₀ budget hp.ne'
    unfold size_order
    rw [if_neg hA]
    by_cases hB : f.minNotional ≠ 0 ∧ sized_qty f price budget * price < f.minNotional
    · rw [if_pos hB]
      by_cases hC : budget < need_qty f price * price
      · rw [if_pos hC]
        exact ⟨Or.inl rfl, Or.inl (by rw [zero_mul]; exact hb.le)⟩
      · rw [if_neg hC]
        by_cases hD : 0 < need_qty f price
        · rw [if_pos hD]
          exact ⟨Or.inr hneed, Or.inl (not_lt.mp hC)⟩
        · rw [if_neg hD]
          exact ⟨Or.inl rfl, Or.inl (by rw [zero_mul]; exact hb.le)⟩
    · rw [if_neg hB]
      by_cases hE : 0 < sized_qty f price budget
      · rw [if_pos hE]
        refine ⟨Or.inr ?_, hsized⟩
        rcases not_and_or.mp hB with h | h
        · exact absurd (not_not.mp h) hn.ne'
        · exact not_lt.mp h
      · rw [if_neg hE]
        exact ⟨Or.inl rfl, Or.inl (by rw [zero_mul]; exact hb.le)⟩

/-- C1 counterexample: with step 1, minQty 10 and minNotional 5 cached,
price 1 and budget 5 (both positive), `size_order` returns 10 — the
minimum-quantity raise — whose cost 10 exceeds the budget 5, refuting
`q * price ≤ budget` as stated. -/
theorem size_order_budget_cex :
    size_order cexFiltersBudget 1 5 = 10 ∧
    ¬ (size_order cexFiltersBudget 1 5 * 1 ≤ 5) := by
  have h : size_order cexFiltersBudget 1 5 = 10 := by
    norm_num [size_order, sized_qty, need_qty, round_qty, floor_step, bump_min,
      quantize_down, truncQ, cexFiltersBudget]
  rw [h]
  norm_num

/-- C1 witness at the fine filters, price 2 and budget 10. -/
theorem size_order_budget_notional_witness :
    (((2:ℚ) ≤ 0 ∨ (10:ℚ) ≤ 0) → size_order cexFiltersFine 2 10 = 0) ∧
    ((0:ℚ) < 2 → (0:ℚ) < 10 →
      (size_order cexFiltersFine 2 10 = 0 ∨
        cexFiltersFine.minNotional ≤ size_order cexFiltersFine 2 10 * 2) ∧
      (size_order cexFiltersFine 2 10 * 2 ≤ 10 ∨
        size_order cexFiltersFine 2 10 = cexFiltersFine.minQty)) :=
  size_order_budget_notional cexFiltersFine 2 10 (by norm_num [cexFiltersFine])
    (by norm_num [cexFiltersFine]) (by norm_num [cexFiltersFine])

/-! Claim C3: round_qty floors to the step and raises to the minimum. -/

/-- C3 (amended): for positive cached step size and minimum quantity and a
positive input quantity, `round_qty` returns a value at least `minQty`.
When the step-floored quantity is below `minQty` the result is exactly
`minQty` (which need not be a multiple of the step size); otherwise the
result is the floored quantity, a multiple of the step size. -/
theorem round_qty_step_min (f : SymbolFilters) (qty : ℚ)
    (hs : 0 < f.stepSize) (hq : 0 < f.minQty) (hx : 0 < qty) :
    f.minQty ≤ round_qty f qty ∧
    (quantize_down qty f.stepSize < f.minQty → round_qty f qty = f.minQty) ∧
    (f.minQty ≤ quantize_down qty f.stepSize →
      round_qty f qty = quantize_down qty f.stepSize ∧
      ∃ k : ℤ, round_qty f qty = (k : ℚ) * f.stepSize) := by
  rw [round_qty_eq]
  refine ⟨?_, ?_, ?_⟩
  · split_ifs with h
    · exact le_refl _
    · rcases not_and_or.mp h with h1 | h1
      · exact absurd (not_not.mp h1) hq.ne'
      · exact not_lt.mp h1
  · intro hlt
    rw [if_pos ⟨hq.ne', hlt⟩]
  · intro hge
    have hcond : ¬ (f.minQty ≠ 0 ∧ quantize_down qty f.stepSize < f.minQty) :=
      fun hc => absurd hge (not_le.mpr hc.2)
    rw [if_neg hcond]
    exact ⟨rfl, quantize_down_eq_int_mul hs.ne'⟩

/-- C3 counterexample: with step 0.3 and minQty 0.5 cached, the input 0.4
floors to 0.3, is raised to 0.5, and 0.5 is not an integer multiple of the
step 0.3 — refuting "returns a multiple of step_size" as stated. -/
theorem round_qty_multiple_cex :
    round_qty cexFiltersMult (2/5) = 1/2 ∧
    ∀ k : ℤ, (k : ℚ) * cexFiltersMult.stepSize ≠ round_qty cexFiltersMult (2/5) := by
  have h : round_qty cexFiltersMult (2/5) = 1/2 := by
    norm_num [round_qty, floor_step, bump_min, quantize_down, truncQ, cexFiltersMult]
  refine ⟨h, ?_⟩
  intro k hk
  rw [h] at hk
  have hstep : cexFiltersMult.stepSize = 3/10 := rfl
  rw [hstep] at hk
  have h3 : ((3 * k : ℤ) : ℚ) = ((5 : ℤ) : ℚ) := by push_cast; linarith
  have h4 : (3 * k : ℤ) = 5 := by exact_mod_cast h3
  omega

/-- C3 witness at the coarse filters and quantity 3. -/
theorem round_qty_step_min_witness :
    cexFiltersCoarse.minQty ≤ round_qty cexFiltersCoarse 3 ∧
    (quantize_down 3 cexFiltersCoarse.stepSize < cexFiltersCoarse.minQty →
      round_qty cexFiltersCoarse 3 = cexFiltersCoarse.minQty) ∧
    (cexFiltersCoarse.minQty ≤ quantize_down 3 cexFiltersCoarse.stepSize →
      round_qty cexFiltersCoarse 3 = quantize_down 3 cexFiltersCoarse.stepSize ∧
      ∃ k : ℤ, round_qty cexFiltersCoarse 3 = (k : ℚ) * cexFiltersCoarse.stepSize) :=
  round_qty_step_min cexFiltersCoarse 3 (by norm_num [cexFiltersCoarse])
    (by norm_num [cexFiltersCoarse]) (by norm_num)

/-! Claim C6: the fee-aware take-profit price. -/

/-- C6 (amended): with fee fractions in the unit interval, positive average
price and quantity and a non-negative target, `_tp_price` equals
`avg * (1 + maker) * (1 + target) / (1 - taker)`, and selling the held
quantity at that exact price realizes a net profit, after the maker-side
entry fee and taker-side exit fee, of at least (in fact exactly) the target
fraction of the fee-adjusted entry cost.  Flooring the price to the tick
via `round_price` can drop the realized profit below the target (see the
counterexample), so the guarantee holds for the exact price only. -/
theorem tp_price_meets_target (avg maker taker t qty : ℚ)
    (hm : 0 ≤ maker) (ht0 : 0 ≤ taker) (ht1 : taker < 1) (ha : 0 < avg)
    (hq : 0 < qty) (htg : 0 ≤ t) :
    tp_price avg maker taker t = avg * (1 + maker) * (1 + t) / (1 - taker) ∧
    t * entry_cost qty avg maker ≤
      net_profit qty avg maker (tp_price avg maker taker t) taker := by
  have hne : (1 : ℚ) - taker ≠ 0 := sub_ne_zero.mpr (by linarith)
  refine ⟨rfl, le_of_eq ?_⟩
  unfold net_profit sell_proceeds entry_cost tp_price
  field_simp
  ring

/-- C6 counterexample: with zero fees, target 2%, average price 100 and a
tick size of 5, the take-profit price 102 floors to 100, and selling one
unit there realizes zero profit — strictly below the 2% target —
refuting the claim's guarantee for the price after `round_price`. -/
theorem tp_quantized_target_cex :
    round_price cexFiltersTick5 (tp_price 100 0 0 (1/50)) = 100 ∧
    ¬ ((1/50 : ℚ) * entry_cost 1 100 0 ≤
        net_profit 1 100 0 (round_price cexFiltersTick5 (tp_price 100 0 0 (1/50))) 0) := by
  have h : round_price cexFiltersTick5 (tp_price 100 0 0 (1/50)) = 100 := by
    norm_num [round_price, quantize_down, truncQ, tp_price, cexFiltersTick5]
  refine ⟨h, ?_⟩
  rw [h]
  norm_num [net_profit, entry_cost, sell_proceeds]

/-- C6 witness at the spec's worked example: average 100, maker fee 8 bps,
taker fee 5 bps, target 2%, one unit held. -/
theorem tp_price_meets_target_witness :
    tp_price 100 (1/1250) (1/2000) (1/50) =
      100 * (1 + 1/1250) * (1 + 1/50) / (1 - 1/2000) ∧
    (1/50 : ℚ) * entry_cost 1 100 (1/1250) ≤
      net_profit 1 100 (1/1250) (tp_price 100 (1/1250) (1/2000) (1/50)) (1/2000) :=
  tp_price_meets_target 100 (1/1250) (1/2000) (1/50) 1 (by norm_num) (by norm_num)
    (by norm_num) (by norm_num) (by norm_num) (by norm_num)

/-! Helper lemmas about the trading-tick steps. -/

theorem gate_not_blocked (cfg : TradeConfig) (a : Option ℚ)
    (h : ¬ gate_blocked cfg a = true) :
    a = none ∨ ∃ v, a = some v ∧ cfg.volMin ≤ v := by
  cases a with
  | none => exact Or.inl rfl
  | some v =>
    refine Or.inr ⟨v, rfl, ?_⟩
    have h2 : ¬ v < cfg.volMin := by simpa [gate_blocked] using h
    exact not_lt.mp h2

theorem reconcile_fx_fst_flat (testOnly : Bool) (f : SymbolFilters) (sym : String)
    (price baseFree : ℚ) (qres : Option QueryResult) (pos : Position)
    (h : pos.state = PState.flat) :
    (reconcile_fx testOnly f sym price baseFree qres pos).1 = pos := by
  have hneg : ¬ (testOnly = false ∧ pos.state = PState.opening ∧
      pos.last_buy_order.isSome) := by
    rintro ⟨-, h2, -⟩
    rw [h] at h2
    exact PState.noConfusion h2
  unfold reconcile_fx
  rw [if_neg hneg]

theorem exit_fx_fst_not_long (cfg : TradeConfig) (testOnly : Bool)
    (f : SymbolFilters) (c : ExitCtx) (pos : Position)
    (h : ¬ pos.state = PState.long) :
    (exit_fx cfg testOnly f c pos).1 = pos := by
  unfold exit_fx
  rw [if_neg (fun hc => h hc.1)]

theorem entry_fx_change (cfg : TradeConfig) (testOnly : Bool) (f : SymbolFilters)
    (c : EntryCtx) (pos : Position)
    (hch : (entry_fx cfg testOnly f c pos).1 ≠ pos) :
    (c.recommendation = "BUY" ∨ c.recommendation = "ACCUMULATE") ∧
    (effAtr c.cachedAtr c.recomputedAtr = none ∨
      ∃ v, effAtr c.cachedAtr c.recomputedAtr = some v ∧ cfg.volMin ≤ v) ∧
    0 < entry_qty cfg testOnly f c := by
  unfold entry_fx at hch
  by_cases h1 : pos.state = PState.flat ∧
      (c.recommendation = "BUY" ∨ c.recommendation = "ACCUMULATE")
  · rw [if_pos h1] at hch
    by_cases h2 : gate_blocked cfg (effAtr c.cachedAtr c.recomputedAtr) = true
    · rw [if_pos h2] at hch
      exact absurd rfl hch
    · rw [if_neg h2] at hch
      by_cases h3 : testOnly = false
      · rw [if_pos h3] at hch
        exact absurd rfl hch
      · rw [if_neg h3] at hch
        by_cases h4 : entry_qty cfg testOnly f c ≤ 0
        · rw [if_pos h4] at hch
          exact absurd rfl hch
        · exact ⟨h1.2, gate_not_blocked cfg _ h2, not_le.mp h4⟩
  · rw [if_neg h1] at hch
    exact absurd rfl hch

theorem reconcile_fx_eval_none (testOnly : Bool) (f : SymbolFilters) (sym : String)
    (price baseFree : ℚ) (pos : Position) :
    reconcile_fx testOnly f sym price baseFree none pos =
      if testOnly = false ∧ pos.state = PState.opening ∧ pos.last_buy_order.isSome
      then (pos, [Effect.call ("query_order"), Effect.emit ("trade_error") sym])
      else (pos, []) := rfl

theorem reconcile_fx_eval_some (testOnly : Bool) (f : SymbolFilters) (sym : String)
    (price baseFree : ℚ) (od : QueryResult) (pos : Position) :
    reconcile_fx testOnly f sym price baseFree (some od) pos =
      if testOnly = false ∧ pos.state = PState.opening ∧ pos.last_buy_order.isSome
      then reconcile_od f sym price baseFree od pos
      else (pos, []) := rfl

theorem round_qty_ge_min (f : SymbolFilters) (x : ℚ) (hm : f.minQty ≠ 0) :
    f.minQty ≤ round_qty f x := by
  rw [round_qty_eq]
  split_ifs with h
  · exact le_refl _
  · rcases not_and_or.mp h with h1 | h1
    · exact absurd (not_not.mp h1) hm
    · exact not_lt.mp h1

theorem reconcile_od_posinv (f : SymbolFilters) (sym : String)
    (price baseFree : ℚ) (od : QueryResult) (pos : Position)
    (hminq : 0 < f.minQty) (hopening : pos.state = PState.opening)
    (hinv : PosInvD pos) :
    PosInvD (reconcile_od f sym price baseFree od pos).1 := by
  unfold reconcile_od
  by_cases h2 : od.status = "FILLED"
  · rw [if_pos h2]
    have hpos : 0 < round_qty f (od.executedQty.getD baseFree) :=
      lt_of_lt_of_le hminq (round_qty_ge_min f _ hminq.ne')
    exact ⟨⟨fun _ => Or.inl rfl, fun h => PState.noConfusion h, fun _ => hpos⟩,
      hpos.le⟩
  · rw [if_neg h2]
    by_cases h3 : od.status = "CANCELED" ∨ od.status = "REJECTED"
    · rw [if_pos h3]
      have hq0 : pos.qty = 0 := by
        by_contra hne
        have hpos : 0 < pos.qty := lt_of_le_of_ne hinv.2 (Ne.symm hne)
        rcases hinv.1.1 hpos with h | h <;> rw [hopening] at h <;>
          exact PState.noConfusion h
      exact ⟨⟨fun hlt => absurd (hq0 ▸ hlt) (lt_irrefl 0), fun _ => hq0,
        fun h => hinv.1.2.2 h⟩, hinv.2⟩
    · rw [if_neg h3]
      exact hinv

theorem reconcile_fx_posinv (testOnly : Bool) (f : SymbolFilters) (sym : String)
    (price baseFree : ℚ) (qres : Option QueryResult) (pos : Position)
    (hminq : 0 < f.minQty) (hinv : PosInvD pos) :
    PosInvD (reconcile_fx testOnly f sym price baseFree qres pos).1 := by
  rcases qres with - | od
  · rw [reconcile_fx_eval_none]
    split_ifs with h1
    · exact hinv
    · exact hinv
  · rw [reconcile_fx_eval_some]
    split_ifs with h1
    · exact reconcile_od_posinv f sym price baseFree od pos hminq h1.2.1 hinv
    · exact hinv

theorem entry_fx_posinv (cfg : TradeConfig) (testOnly : Bool) (f : SymbolFilters)
    (c : EntryCtx) (pos : Position) (hinv : PosInvD pos) :
    PosInvD (entry_fx cfg testOnly f c pos).1 := by
  unfold entry_fx
  by_cases h1 : pos.state = PState.flat ∧
      (c.recommendation = "BUY" ∨ c.recommendation = "ACCUMULATE")
  · rw [if_pos h1]
    by_cases h2 : gate_blocked cfg (effAtr c.cachedAtr c.recomputedAtr) = true
    · rw [if_pos h2]
      exact hinv
    · rw [if_neg h2]
      by_cases h3 : testOnly = false
      · rw [if_pos h3]
        exact hinv
      · rw [if_neg h3]
        by_cases h4 : entry_qty cfg testOnly f c ≤ 0
        · rw [if_pos h4]
          exact hinv
        · rw [if_neg h4]
          by_cases h5 : c.buyOk = false
          · rw [if_pos h5]
            exact hinv
          · rw [if_neg h5]
            have hqs := not_le.mp h4
            exact ⟨⟨fun _ => Or.inl rfl, fun h => PState.noConfusion h,
              fun _ => hqs⟩, hqs.le⟩
  · rw [if_neg h1]
    exact hinv

theorem exit_fx_posinv (cfg : TradeConfig) (testOnly : Bool) (f : SymbolFilters)
    (c : ExitCtx) (pos : Position) (hinv : PosInvD pos) :
    PosInvD (exit_fx cfg testOnly f c pos).1 := by
  unfold exit_fx
  by_cases h1 : pos.state = PState.long ∧ 0 < pos.qty ∧ 0 < avgOf pos
  · rw [if_pos h1]
    by_cases h2 : testOnly = false ∧ c.baseFree ≤ 0
    · rw [if_pos h2]
      exact hinv
    · rw [if_neg h2]
      by_cases h3 : testOnly = false ∧ sell_qty testOnly f c.baseFree pos.qty ≤ 0
      · rw [if_pos h3]
        exact hinv
      · rw [if_neg h3]
        by_cases h4 : c.sellOk = true
        · rw [if_pos h4]
          exact ⟨⟨fun _ => Or.inr rfl, fun h => PState.noConfusion h,
            fun _ => h1.2.1⟩, hinv.2⟩
        · rw [if_neg h4]
          exact hinv
  · rw [if_neg h1]
    exact hinv

/-- Concrete evaluation of one test-mode tick on a flat row with a BUY
recommendation, no ATR ratio anywhere and a positive sizing: the row ends
long-then-closing with qty 0.5, average 100, target 102 and sell order 2. -/
theorem tick_test_eval :
    (tick_symbol cexCfg true cexTestCtx defaultPos).1 =
      { qty := 1/2, avg_price := some 100, state := PState.closing,
        target_price := some 102, stop_price := none, last_buy_order := none,
        last_sell_order := some 2 } := by
  norm_num [tick_symbol, andThen, reconcile_fx, entry_fx, exit_fx, entry_ctx,
    exit_ctx, entry_qty, entry_budget, size_order, sized_qty, need_qty,
    round_qty, round_price, floor_step, bump_min, quantize_down, quantize_up,
    truncQ, awayQ, gate_blocked, effAtr, tp_of, tp_price, avgOf, sell_qty,
    min_def, max_def, cexCfg, cexTestCtx, cexFiltersFine, defaultPos]

/-! Claim C9: the disabled trading tick does nothing. -/

/-- C9: for every configuration, symbol list and position store, when the
trading-enabled flag is false `trader_tick` returns immediately: the
position store is returned unchanged and no order row, exchange call or
broadcast event is produced. -/
theorem trader_tick_disabled (cfg : TradeConfig) (testOnly acctOk : Bool)
    (ctxs : List SymbolCtx) (ps : List (String × Position)) :
    trader_tick cfg testOnly false acctOk ctxs ps = (ps, []) := by
  unfold trader_tick
  rw [if_pos rfl]

/-! Claim C5: what can move a flat position. -/

/-- C5 (amended): in a trading tick, a flat position's row changes only
when the recommendation is BUY or ACCUMULATE, the volatility gate does not
block (the effective ATR ratio is either absent — both the cached value and
the fallback recomputation — or at least the configured minimum), and the
entry sizing is positive.  Every other combination leaves the row
unchanged.  The original claim's gate reading "atr_ratio at or above the
minimum" fails: an absent ratio also passes (see the counterexample). -/
theorem tick_flat_change_conditions (cfg : TradeConfig) (testOnly : Bool)
    (c : SymbolCtx) (pos : Position) (hflat : pos.state = PState.flat)
    (hch : (tick_symbol cfg testOnly c pos).1 ≠ pos) :
    (c.recommendation = "BUY" ∨ c.recommendation = "ACCUMULATE") ∧
    (effAtr c.cachedAtr c.recomputedAtr = none ∨
      ∃ v, effAtr c.cachedAtr c.recomputedAtr = some v ∧ cfg.volMin ≤ v) ∧
    0 < entry_qty cfg testOnly c.filters (entry_ctx c) := by
  unfold tick_symbol at hch
  by_cases h1 : c.tradable = false
  · rw [if_pos h1] at hch
    exact absurd rfl hch
  rw [if_neg h1] at hch
  by_cases h2 : c.hasPrice = false
  · rw [if_pos h2] at hch
    exact absurd rfl hch
  rw [if_neg h2] at hch
  simp only [andThen] at hch
  rw [reconcile_fx_fst_flat _ _ _ _ _ _ _ hflat] at hch
  by_cases hE : (entry_fx cfg testOnly c.filters (entry_ctx c) pos).1 = pos
  · rw [hE, exit_fx_fst_not_long _ _ _ _ _
      (fun h => PState.noConfusion (hflat ▸ h))] at hch
    exact absurd rfl hch
  · have h := entry_fx_change cfg testOnly c.filters (entry_ctx c) pos hE
    exact ⟨h.1, h.2.1, h.2.2⟩

/-- C5 counterexample: a flat row with a BUY recommendation whose cached
and recomputed ATR ratios are both absent is nevertheless moved by the tick
(to long and then closing), although no ratio at or above the configured
minimum exists — the absent ratio passed the gate. -/
theorem tick_flat_gate_cex :
    (tick_symbol cexCfg true cexTestCtx defaultPos).1 ≠ defaultPos ∧
    effAtr cexTestCtx.cachedAtr cexTestCtx.recomputedAtr = none := by
  constructor
  · rw [tick_test_eval]
    intro heq
    rw [Position.mk.injEq] at heq
    exact PState.noConfusion heq.2.2.1
  · rfl

/-- C5 witness at the same concrete tick input. -/
theorem tick_flat_change_conditions_witness :
    (cexTestCtx.recommendation = "BUY" ∨ cexTestCtx.recommendation = "ACCUMULATE") ∧
    (effAtr cexTestCtx.cachedAtr cexTestCtx.recomputedAtr = none ∨
      ∃ v, effAtr cexTestCtx.cachedAtr cexTestCtx.recomputedAtr = some v ∧
        cexCfg.volMin ≤ v) ∧
    0 < entry_qty cexCfg true cexTestCtx.filters (entry_ctx cexTestCtx) :=
  tick_flat_change_conditions cexCfg true cexTestCtx defaultPos rfl
    (by rw [tick_test_eval]
        intro heq
        rw [Position.mk.injEq] at heq
        exact PState.noConfusion heq.2.2.1)

/-! Claim C7: the position invariant across tick mutations. -/

/-- C7 (amended): every position mutation of the trading tick — test-mode
entry placement (the live-mode entry performs no mutation: it aborts on the
undefined name RESERVE_PCT before writing), FILLED / CANCELED / REJECTED
reconciliation and take-profit placement — preserves the invariant
(`qty > 0` only in long or closing, flat implies `qty = 0`, `avg_price` set
only when `qty > 0`), together with the data model's `qty ≥ 0`, for every
symbol whose cached minimum quantity is positive.  When the cached
`min_qty` is absent (zero), a FILLED reconciliation whose executed
quantity falls back to a zero free-base snapshot sets `avg_price` with
`qty = 0`, violating the last clause (see the counterexample). -/
theorem tick_preserves_invariant (cfg : TradeConfig) (testOnly : Bool)
    (c : SymbolCtx) (pos : Position) (hminq : 0 < c.filters.minQty)
    (hinv : PosInv pos) (hq : 0 ≤ pos.qty) :
    PosInv (tick_symbol cfg testOnly c pos).1 ∧
    0 ≤ (tick_symbol cfg testOnly c pos).1.qty := by
  unfold tick_symbol
  by_cases h1 : c.tradable = false
  · rw [if_pos h1]
    exact ⟨hinv, hq⟩
  rw [if_neg h1]
  by_cases h2 : c.hasPrice = false
  · rw [if_pos h2]
    exact ⟨hinv, hq⟩
  rw [if_neg h2]
  simp only [andThen]
  exact exit_fx_posinv _ _ _ _ _
    (entry_fx_posinv _ _ _ _ _
      (reconcile_fx_posinv _ _ _ _ _ _ _ hminq ⟨hinv, hq⟩))

/-- C7 counterexample: a pre-existing `opening` row (with an outstanding
buy order reference) satisfying the full invariant is reconciled in live
mode against a FILLED status without an executedQty; with no cached
minimum quantity, the quantity falls back to the zero free-base snapshot
and rounds to 0, yet the average price is recorded — the committed row has
`avg_price` set with `qty = 0`, violating "avg_price is set only when
qty > 0". -/
theorem tick_filled_avg_cex :
    PosInv cexOpeningPos ∧
    ¬ PosInv (tick_symbol cexCfg false cexFilledCtx cexOpeningPos).1 := by
  have hres : (tick_symbol cexCfg false cexFilledCtx cexOpeningPos).1 =
      { qty := 0, avg_price := some 100, state := PState.long,
        target_price := none, stop_price := none, last_buy_order := some 9,
        last_sell_order := none } := by
    norm_num [tick_symbol, andThen, reconcile_fx, reconcile_od, fill_avg,
      entry_fx, exit_fx, entry_ctx, exit_ctx, round_qty, round_price,
      floor_step, bump_min, quantize_down, truncQ, avgOf, gate_blocked,
      effAtr, sell_qty, cexCfg, cexFilledCtx, cexFiltersNoMin, cexOpeningPos]
  constructor
  · exact ⟨fun h => absurd h (lt_irrefl 0), fun h => PState.noConfusion h,
      fun h => Bool.noConfusion h⟩
  · rw [hres]
    rintro ⟨-, -, h3⟩
    exact absurd (h3 rfl) (lt_irrefl 0)

/-- C7 witness: the invariant and non-negativity are preserved across the
concrete test-mode tick on the flat default row (minQty 0.001 > 0). -/
theorem tick_preserves_invariant_witness :
    PosInv (tick_symbol cexCfg true cexTestCtx defaultPos).1 ∧
    0 ≤ (tick_symbol cexCfg true cexTestCtx defaultPos).1.qty :=
  tick_preserves_invariant cexCfg true cexTestCtx defaultPos
    (by norm_num [cexTestCtx, cexFiltersFine])
    ⟨fun h => absurd h (lt_irrefl 0), fun _ => rfl, fun h => Bool.noConfusion h⟩
    (le_refl 0)

/-! Claim C2: the live take-profit quantity trim. -/

/-- C2 (amended): in live mode, when a long position with positive quantity
and average price faces a free base balance that is positive but below the
held quantity, the quantity submitted with the take-profit SELL order is
`round_qty(free_base)`, which is at most `max free_base minQty`: it never
exceeds the free balance except when the minimum-quantity raise fires, in
which case it equals `minQty` and may exceed the balance (see the
counterexample to the original "never raised above it"). -/
theorem sell_qty_trim_bound (cfg : TradeConfig) (f : SymbolFilters) (c : ExitCtx)
    (pos : Position) (hstep : 0 ≤ f.stepSize) (hst : pos.state = PState.long)
    (hq : 0 < pos.qty) (ha : 0 < avgOf pos) (hbf : 0 < c.baseFree)
    (hlt : c.baseFree < pos.qty) (o : OrderRec)
    (ho : Effect.order o ∈ (exit_fx cfg false f c pos).2) :
    o.qty ≤ max c.baseFree f.minQty := by
  have hsq : sell_qty false f c.baseFree pos.qty = round_qty f c.baseFree := by
    unfold sell_qty
    rw [if_pos ⟨rfl, hlt⟩]
  unfold exit_fx at ho
  rw [if_pos (⟨hst, hq, ha⟩ : _ ∧ _ ∧ _)] at ho
  rw [if_neg (fun hc : false = false ∧ c.baseFree ≤ 0 =>
    absurd hc.2 (not_le.mpr hbf))] at ho
  by_cases h3 : false = false ∧ sell_qty false f c.baseFree pos.qty ≤ 0
  · rw [if_pos h3] at ho
    simp at ho
  · rw [if_neg h3] at ho
    by_cases h4 : c.sellOk = true
    · rw [if_pos h4] at ho
      simp only [List.mem_cons, List.not_mem_nil, or_false] at ho
      rcases ho with h | h | h
      · exact absurd h (by simp)
      · rw [Effect.order.injEq] at h
        rw [h]
        show sell_qty false f c.baseFree pos.qty ≤ max c.baseFree f.minQty
        rw [hsq]
        exact round_qty_le_max f hstep hbf.le
      · exact absurd h (by simp)
    · rw [if_neg h4] at ho
      simp only [List.mem_cons, List.not_mem_nil, or_false] at ho
      rcases ho with h | h | h
      · exact absurd h (by simp)
      · rw [Effect.order.injEq] at h
        rw [h]
        show sell_qty false f c.baseFree pos.qty ≤ max c.baseFree f.minQty
        rw [hsq]
        exact round_qty_le_max f hstep hbf.le
      · exact absurd h (by simp)

/-- C2 counterexample: live mode, long position holding 2 units at average
100, free base balance 0.5, filters with step 0.1 and minQty 1: the
submitted take-profit SELL quantity is 1 — `round_qty(0.5)` raised to the
minimum — which exceeds the available balance 0.5. -/
theorem sell_qty_trim_cex :
    (Effect.order ⟨"BTCUSDT", "SELL", "LIMIT", 102, 1, "NEW", false⟩ ∈
      (exit_fx cexCfg false cexFiltersCoarse
        ⟨"BTCUSDT", 1/2, true, some 3⟩ cexLongPos).2) ∧
    ¬ ((1 : ℚ) ≤ 1/2) := by
  constructor
  · have h : (exit_fx cexCfg false cexFiltersCoarse
        ⟨"BTCUSDT", 1/2, true, some 3⟩ cexLongPos).2 =
        [Effect.call ("new_order"),
         Effect.order ⟨"BTCUSDT", "SELL", "LIMIT", 102, 1, "NEW", false⟩,
         Effect.emit ("trade_sell_tp_placed") ("BTCUSDT")] := by
      norm_num [exit_fx, sell_qty, tp_of, tp_price, round_price, round_qty,
        floor_step, bump_min, quantize_down, truncQ, avgOf, cexCfg,
        cexFiltersCoarse, cexLongPos]
    rw [h]
    simp
  · norm_num

/-- C2 witness at the same concrete exit input: the submitted quantity 1 is
within `max free_base minQty = max 0.5 1`. -/
theorem sell_qty_trim_bound_witness :
    OrderRec.qty ⟨"BTCUSDT", "SELL", "LIMIT", 102, 1, "NEW", false⟩ ≤
      max (1/2 : ℚ) cexFiltersCoarse.minQty :=
  sell_qty_trim_bound cexCfg cexFiltersCoarse ⟨"BTCUSDT", 1/2, true, some 3⟩
    cexLongPos (by norm_num [cexFiltersCoarse]) rfl
    (by norm_num [cexLongPos]) (by norm_num [avgOf, cexLongPos])
    (by norm_num) (by norm_num [cexLongPos])
    ⟨"BTCUSDT", "SELL", "LIMIT", 102, 1, "NEW", false⟩
    (by
      have h : (exit_fx cexCfg false cexFiltersCoarse
          ⟨"BTCUSDT", 1/2, true, some 3⟩ cexLongPos).2 =
          [Effect.call ("new_order"),
           Effect.order ⟨"BTCUSDT", "SELL", "LIMIT", 102, 1, "NEW", false⟩,
           Effect.emit ("trade_sell_tp_placed") ("BTCUSDT")] := by
        norm_num [exit_fx, sell_qty, tp_of, tp_price, round_price, round_qty,
          floor_step, bump_min, quantize_down, truncQ, avgOf, cexCfg,
          cexFiltersCoarse, cexLongPos]
      rw [h]
      simp)

end CryptoAgent
